import Mathlib

/-!
Shallow embedding of `backend/app/converters/__init__.py` (the toMD converter
registry and dispatch module) and proofs about its dispatch policy.

Modelling conventions:
* Python dicts over string keys become association lists (`List (String × α)`)
  with first-match lookup and overwrite-or-append insertion, mirroring CPython
  dict semantics (insertion order preserved, assignment to an existing key
  overwrites in place).
* A converter implementation class is opaque external code; it is modelled by
  its observable behaviour: whether its constructor raises for given
  credentials, what its `supports_file` check does (returns a Bool or raises),
  and its static `get_info` metadata.
* Python exceptions become `Except` values.  The two `ValueError`s raised by
  the module itself are distinguished constructors carrying the data that the
  Python message interpolates; any exception coming out of converter
  implementation code is `ConvError.converterException`.
* `pathlib.Path.suffix` is embedded faithfully (last dot of the final name
  component, ignored when in position 0 or at the very end); `str.lower` is
  modelled on ASCII, which covers every extension the module compares against.
-/

set_option autoImplicit false

namespace ToMD

/-! ### Association lists as Python dicts -/

/-- First-match lookup in an association list (Python `d[k]` / `k in d`). -/
def alookup {α : Type} (k : String) : List (String × α) → Option α
  | [] => none
  | p :: ps => if p.1 = k then some p.2 else alookup k ps

/-- Keys of an association list, in order (Python `list(d)`). -/
def akeys {α : Type} (d : List (String × α)) : List String :=
  d.map Prod.fst

/-- Python `d[k] = v`: overwrite in place when the key is present, otherwise
append at the end (CPython insertion-order semantics). -/
def dictInsert {α : Type} (k : String) (v : α) (d : List (String × α)) :
    List (String × α) :=
  if (akeys d).contains k then
    d.map (fun p => if p.1 = k then (k, v) else p)
  else
    d ++ [(k, v)]

/-- Python `{**d1, **d2}`: start from `d1` and assign every item of `d2`. -/
def dictMerge {α : Type} (d1 d2 : List (String × α)) : List (String × α) :=
  d2.foldl (fun acc kv => dictInsert kv.1 kv.2 acc) d1

/-! ### `pathlib.Path` and the extension computation -/

/-- A filesystem path, reduced to the data the module reads from it: its final
name component (`Path.name`).  `Path.suffix` is computed from the name only. -/
structure Path where
  name : String
deriving DecidableEq

/-- Index of the last occurrence of a character in a list (`str.rfind`),
`none` when absent. -/
def lastIdxOf (c : Char) : List Char → Option Nat
  | [] => none
  | x :: xs =>
    match lastIdxOf c xs with
    | some i => some (i + 1)
    | none => if x = c then some 0 else none

/-- Embedding of `pathlib.PurePath.suffix`: take the last dot of the name; the
suffix is the slice from that dot, unless the dot is the first character or
the last character of the name (then the suffix is empty). -/
def pySuffix (name : String) : String :=
  let cs := name.toList
  match lastIdxOf '.' cs with
  | none => ""
  | some i => if 0 < i ∧ i < cs.length - 1 then String.mk (cs.drop i) else ""

/-- Embedding of `str.lower` on ASCII (every extension the module compares
against is ASCII). -/
def pyLower (s : String) : String :=
  String.mk (s.toList.map Char.toLower)

/-- Embedding of `str.lstrip "."`: drop leading dots. -/
def pyLstripDot (s : String) : String :=
  String.mk (s.toList.dropWhile (fun c => c = '.'))

/-- The extension key the module computes:
`file_path.suffix.lower().lstrip(".")`. -/
def extKey (p : Path) : String :=
  pyLstripDot (pyLower (pySuffix p.name))

/-! ### Converter implementations and the registry state -/

/-- Observable behaviour of an external converter implementation class.
`ctorRaises k u = true` means `cls(api_key=k, base_url=u)` raises;
`supports p` is what `instance.supports_file(p)` does: returns a `Bool` or
raises (`Except.error`); `info` is the static `get_info()` metadata. -/
structure ConverterClass where
  ctorRaises : Option String → Option String → Bool
  supports : Path → Except Unit Bool
  info : List (String × String)

/-- A constructed converter instance: which class produced it and the
credentials passed to the constructor. -/
structure ConverterInstance where
  cls : ConverterClass
  apiKey : Option String
  baseUrl : Option String

/-- Errors observable from the module's functions.  The first two are the
`ValueError`s the module itself raises (carrying the data interpolated into
their messages); `converterException` is any exception escaping from converter
implementation code (constructors). -/
inductive ConvError where
  /-- `ValueError` listing the requested identifier and the currently
  available identifiers (the message enumerates them). -/
  | converterNotAvailable (requested : String) (available : List String)
  /-- `ValueError` with message listing no converters available. -/
  | noConvertersAvailable
  /-- An exception propagated out of converter implementation code. -/
  | converterException
deriving DecidableEq

/-- The module-level registry state: `CONVERTERS`, `AVAILABLE_CONVERTERS`,
`UNAVAILABLE_CONVERTERS`. -/
structure Registry where
  converters : List (String × ConverterClass)
  available : List String
  unavailable : List (String × String)

/-! ### `get_converter` -/

/-- Embedding of `get_converter`: a lookup error when the identifier is not a
key of `CONVERTERS`, otherwise the result of `CONVERTERS[t](api_key=k,
base_url=u)` (which is a fresh instance, or a propagated constructor
exception). -/
def get_converter (st : Registry) (converter_type : String)
    (api_key base_url : Option String) : Except ConvError ConverterInstance :=
  match alookup converter_type st.converters with
  | none => .error (.converterNotAvailable converter_type st.available)
  | some c =>
    if c.ctorRaises api_key base_url then .error .converterException
    else .ok { cls := c, apiKey := api_key, baseUrl := base_url }

/-! ### The priority table -/

/-- The literal `priority` dict of `get_best_converter_for_file`, before the
image/audio loops run. -/
def basePriority : List (String × List String) :=
  [ ("pdf", ["marker", "docling", "markitdown", "pypandoc", "unstructured"]),
    ("docx", ["mammoth", "markitdown", "docling", "pypandoc", "unstructured"]),
    ("doc", ["markitdown", "pypandoc", "unstructured"]),
    ("pptx", ["docling", "markitdown", "unstructured"]),
    ("ppt", ["markitdown", "unstructured"]),
    ("xlsx", ["docling", "markitdown", "unstructured"]),
    ("xls", ["markitdown", "unstructured"]),
    ("html", ["html2text", "markitdown", "pypandoc", "unstructured"]),
    ("htm", ["html2text", "markitdown", "pypandoc", "unstructured"]),
    ("csv", ["markitdown", "unstructured"]),
    ("json", ["markitdown", "pypandoc"]),
    ("xml", ["markitdown", "html2text", "unstructured"]),
    ("tex", ["pypandoc"]),
    ("latex", ["pypandoc"]),
    ("rst", ["pypandoc", "unstructured"]),
    ("epub", ["pypandoc", "markitdown"]),
    ("ipynb", ["pypandoc"]) ]

/-- The `image_exts` list. -/
def image_exts : List String :=
  ["png", "jpg", "jpeg", "gif", "bmp", "webp", "tiff", "heic"]

/-- The `audio_exts` list. -/
def audio_exts : List String :=
  ["mp3", "wav", "m4a", "ogg", "flac"]

/-- The complete priority table after the two loops that add the image and
audio entries (in that order, as in the source). -/
def priorityTable : List (String × List String) :=
  audio_exts.foldl (fun d e => dictInsert e ["markitdown"] d)
    (image_exts.foldl
      (fun d e => dictInsert e ["markitdown", "docling", "unstructured"] d)
      basePriority)

/-- `priority.get(ext, AVAILABLE_CONVERTERS)`: the ordered candidate list for
a path. -/
def candidateList (st : Registry) (p : Path) : List String :=
  match alookup (extKey p) priorityTable with
  | some l => l
  | none => st.available

/-! ### `get_best_converter_for_file` -/

/-- The candidate loop of `get_best_converter_for_file`: skip names that are
not keys of `CONVERTERS`; otherwise construct via `get_converter` and run the
support check, any exception (construction or support check) or a `false`
support answer moving on to the next candidate; return the first instance
whose support check returns `true`. -/
def searchLoop (st : Registry) (p : Path) (api_key base_url : Option String) :
    List String → Option ConverterInstance
  | [] => none
  | n :: rest =>
    if (alookup n st.converters).isNone then searchLoop st p api_key base_url rest
    else
      match get_converter st n api_key base_url with
      | .error _ => searchLoop st p api_key base_url rest
      | .ok inst =>
        match inst.cls.supports p with
        | .error _ => searchLoop st p api_key base_url rest
        | .ok true => some inst
        | .ok false => searchLoop st p api_key base_url rest

/-- Embedding of `get_best_converter_for_file`: run the candidate loop over
the priority list for the path's extension (or over `AVAILABLE_CONVERTERS`
when the extension is not in the table); when the loop finds nothing, fall
back to `get_converter(AVAILABLE_CONVERTERS[0])` (outside any handler), and
raise the no-converters error when `AVAILABLE_CONVERTERS` is empty. -/
def get_best_converter_for_file (st : Registry) (file_path : Path)
    (api_key base_url : Option String) : Except ConvError ConverterInstance :=
  match searchLoop st file_path api_key base_url (candidateList st file_path) with
  | some inst => .ok inst
  | none =>
    match st.available with
    | [] => .error .noConvertersAvailable
    | first :: _ => get_converter st first api_key base_url

/-! ### `get_all_converter_info` and `get_unavailable_converters` -/

/-- Embedding of `get_all_converter_info`: for each registered entry, the dict
with the identifier first and the class's static info merged over it. -/
def get_all_converter_info (st : Registry) : List (List (String × String)) :=
  st.converters.map (fun nc => dictMerge [("id", nc.1)] nc.2.info)

/-- Embedding of `get_unavailable_converters`: the contents of
`UNAVAILABLE_CONVERTERS.copy()` (object identity of the copy is modelled
separately, in the heap model below). -/
def get_unavailable_converters (st : Registry) : List (String × String) :=
  st.unavailable

/-! ### The load phase -/

/-- Outcome of the `__import__` + `getattr` resolution attempt for one
declared converter: the class when it resolves, or the stringified exception
(`str(e)`) when an `ImportError` or any other exception is raised.  The two
failure constructors mirror the two `except` arms of `_register_converter`. -/
inductive LoadResult where
  | ok (cls : ConverterClass)
  | importError (msg : String)
  | otherError (msg : String)

/-- Whether the resolution attempt succeeded. -/
def LoadResult.isOk : LoadResult → Bool
  | .ok _ => true
  | .importError _ => false
  | .otherError _ => false

/-- The resolved class, when resolution succeeded. -/
def LoadResult.cls? : LoadResult → Option ConverterClass
  | .ok c => some c
  | .importError _ => none
  | .otherError _ => none

/-- The stringified exception, when resolution failed. -/
def LoadResult.errMsg : LoadResult → Option String
  | .ok _ => none
  | .importError m => some m
  | .otherError m => some m

/-- Embedding of `_register_converter`: on success store the class under the
name and append the name to `AVAILABLE_CONVERTERS`; on either exception arm
record the name with the stringified error in `UNAVAILABLE_CONVERTERS`. -/
def register_converter (st : Registry) (name : String) (r : LoadResult) :
    Registry :=
  match r with
  | .ok c =>
    { st with converters := dictInsert name c st.converters,
              available := st.available ++ [name] }
  | .importError m => { st with unavailable := dictInsert name m st.unavailable }
  | .otherError m => { st with unavailable := dictInsert name m st.unavailable }

/-- The seven declared converter identifiers, in declaration order (the module
registers them in this order; order matters for priority). -/
def declaredNames : List String :=
  ["markitdown", "docling", "marker", "pypandoc", "unstructured",
   "mammoth", "html2text"]

/-- Run the registration calls for a list of names, in order, against an
environment that says how each import attempt resolves. -/
def loadList (env : String → LoadResult) : List String → Registry → Registry
  | [], st => st
  | n :: ns, st => loadList env ns (register_converter st n (env n))

/-- The module-level load phase: the seven `_register_converter` calls run in
declaration order against import environment `env`, starting from the empty
registry state. -/
def loadAll (env : String → LoadResult) : Registry :=
  loadList env declaredNames { converters := [], available := [], unavailable := [] }

/-! ### State-threaded query functions

The Python query functions read the module-level globals but contain no
assignment to them; threading the registry state through each body
statement by statement, the state that comes out is the state that went in.
These variants make that explicit so the frame property is statable. -/

/-- `get_converter` with the module state threaded through (no statement of
the body assigns to a global, so the state passes through unchanged). -/
def get_converter_st (st : Registry) (converter_type : String)
    (api_key base_url : Option String) :
    Registry × Except ConvError ConverterInstance :=
  (st, get_converter st converter_type api_key base_url)

/-- `get_best_converter_for_file` with the module state threaded through. -/
def get_best_converter_for_file_st (st : Registry) (file_path : Path)
    (api_key base_url : Option String) :
    Registry × Except ConvError ConverterInstance :=
  (st, get_best_converter_for_file st file_path api_key base_url)

/-- `get_all_converter_info` with the module state threaded through. -/
def get_all_converter_info_st (st : Registry) :
    Registry × List (List (String × String)) :=
  (st, get_all_converter_info st)

/-- `get_unavailable_converters` with the module state threaded through. -/
def get_unavailable_converters_st (st : Registry) :
    Registry × List (String × String) :=
  (st, get_unavailable_converters st)

/-! ### Heap model for `get_unavailable_converters` copy semantics

Whether `.copy()` protects the module state from caller mutation is a
question about object identity, so this claim is settled over a minimal heap
of dict objects: the global `UNAVAILABLE_CONVERTERS` lives at one reference,
and the function allocates a fresh dict holding the same items. -/

/-- A heap of string-to-string dict objects, addressed by index, together
with the reference held by the module global `UNAVAILABLE_CONVERTERS`. -/
structure DictHeap where
  heap : List (List (String × String))
  unavailRef : Nat

/-- The global reference is a live heap address. -/
def DictHeap.WF (s : DictHeap) : Prop :=
  s.unavailRef < s.heap.length

/-- Read the dict object at a reference. -/
def readRef (s : DictHeap) (r : Nat) : List (String × String) :=
  s.heap.getD r []

/-- Overwrite the dict object at a reference (a caller mutating a dict it
holds a reference to). -/
def writeRef (s : DictHeap) (r : Nat) (d : List (String × String)) : DictHeap :=
  { s with heap := s.heap.set r d }

/-- Heap-level embedding of `get_unavailable_converters`:
`UNAVAILABLE_CONVERTERS.copy()` allocates a fresh dict object with the same
items and returns a reference to it. -/
def get_unavailable_converters_heap (s : DictHeap) : DictHeap × Nat :=
  ({ s with heap := s.heap ++ [readRef s s.unavailRef] }, s.heap.length)

/-- A caller applying an arbitrary sequence of in-place mutations to the dict
object it received: each step replaces the contents of that one object with
a function of its current contents (covering insertion, overwrite, deletion
and clearing). -/
def applyMutations (r : Nat)
    (ms : List (List (String × String) → List (String × String)))
    (s : DictHeap) : DictHeap :=
  ms.foldl (fun acc f => writeRef acc r (f (readRef acc r))) s

/-! ### Event-trace instrumentation of the best-converter search

For the no-retry claim the observable is which constructions and support
checks happen, in order, within one call; the trace semantics records them. -/

/-- Outcome of one `supports_file` call: it raised, or returned a boolean. -/
inductive SupportOutcome where
  | raised
  | answered (b : Bool)
deriving DecidableEq

/-- View of an `Except Unit Bool` support result as a `SupportOutcome`. -/
def SupportOutcome.of : Except Unit Bool → SupportOutcome
  | .error _ => .raised
  | .ok b => .answered b

/-- One observable interaction with converter implementation code during a
`get_best_converter_for_file` call. -/
inductive Event where
  /-- A constructor call on the class registered under the name; `ok` is
  false when the constructor raised. -/
  | construct (name : String) (ok : Bool)
  /-- A `supports_file` call on an instance of the class registered under the
  name, with its outcome. -/
  | supportCheck (name : String) (outcome : SupportOutcome)
deriving DecidableEq

/-- The candidate loop with its interaction trace.  Events mirror the body:
a skipped name (not a `CONVERTERS` key) produces no event; a constructor call
produces a `construct` event; when construction succeeds, the support check
produces a `supportCheck` event; the loop stops at the first `true`. -/
def searchLoopT (st : Registry) (p : Path) (api_key base_url : Option String) :
    List String → List Event × Option ConverterInstance
  | [] => ([], none)
  | n :: rest =>
    match alookup n st.converters with
    | none => searchLoopT st p api_key base_url rest
    | some c =>
      if c.ctorRaises api_key base_url then
        let (tr, res) := searchLoopT st p api_key base_url rest
        (Event.construct n false :: tr, res)
      else
        match c.supports p with
        | .error _ =>
          let (tr, res) := searchLoopT st p api_key base_url rest
          (Event.construct n true :: Event.supportCheck n .raised :: tr, res)
        | .ok true =>
          ([Event.construct n true, Event.supportCheck n (.answered true)],
           some { cls := c, apiKey := api_key, baseUrl := base_url })
        | .ok false =>
          let (tr, res) := searchLoopT st p api_key base_url rest
          (Event.construct n true :: Event.supportCheck n (.answered false) :: tr, res)

/-- The final-fallback events: `get_converter(AVAILABLE_CONVERTERS[0], ...)`
performs one constructor call when the name is a `CONVERTERS` key, and no
support check at all. -/
def fallbackTrace (st : Registry) (api_key base_url : Option String) :
    List Event :=
  match st.available with
  | [] => []
  | first :: _ =>
    match alookup first st.converters with
    | none => []
    | some c => [Event.construct first (!c.ctorRaises api_key base_url)]

/-- The full interaction trace of one `get_best_converter_for_file` call: the
loop's events, followed by the fallback's events when the loop found no
supporting converter. -/
def bestConverterTrace (st : Registry) (p : Path)
    (api_key base_url : Option String) : List Event :=
  match searchLoopT st p api_key base_url (candidateList st p) with
  | (tr, some _) => tr
  | (tr, none) => tr ++ fallbackTrace st api_key base_url

/-- Whether an event is a failure of the named candidate: its construction
raised, or its support check raised or answered `false`. -/
def Event.isFailureOf (name : String) : Event → Bool
  | .construct n ok => n = name && !ok
  | .supportCheck n outcome =>
    n = name && (match outcome with
                 | .raised => true
                 | .answered b => !b)

/-- Whether an event constructs or queries the named candidate. -/
def Event.touches (name : String) : Event → Bool
  | .construct n _ => n = name
  | .supportCheck n _ => n = name

/-- The name a trace event is about. -/
def Event.name : Event → String
  | .construct n _ => n
  | .supportCheck n _ => n

/-- The no-retry property as claimed: once a candidate has failed, no later
event of the same call constructs or queries that candidate again. -/
def NoRetry (tr : List Event) : Prop :=
  ∀ i j : Fin tr.length, (i : Nat) < (j : Nat) →
    (tr.get i).isFailureOf ((tr.get j).name) = false

instance (tr : List Event) : Decidable (NoRetry tr) := by
  unfold NoRetry; infer_instance

/-- Number of constructor calls on the named candidate in a trace. -/
def countConstruct (n : String) : List Event → Nat
  | [] => 0
  | .construct m _ :: tr => (if m = n then 1 else 0) + countConstruct n tr
  | .supportCheck _ _ :: tr => countConstruct n tr

/-- Number of support checks on the named candidate in a trace. -/
def countSupport (n : String) : List Event → Nat
  | [] => 0
  | .construct _ _ :: tr => countSupport n tr
  | .supportCheck m _ :: tr => (if m = n then 1 else 0) + countSupport n tr

/-! ### Well-formedness of the registry after the load phase -/

/-- Registry states the load phase can produce: the keys of `CONVERTERS`, in
insertion order, are exactly `AVAILABLE_CONVERTERS`, without duplicates. -/
def Registry.WF (st : Registry) : Prop :=
  akeys st.converters = st.available ∧ st.available.Nodup

/-- The partition half of the load-phase invariant: available and unavailable
identifiers are drawn from the declared ones, together they cover them, and
no identifier is in both. -/
def registryPartition (st : Registry) : Prop :=
  (∀ n ∈ declaredNames, n ∈ st.available ∨ n ∈ akeys st.unavailable) ∧
  (∀ n ∈ st.available, n ∈ declaredNames) ∧
  (∀ n ∈ akeys st.unavailable, n ∈ declaredNames) ∧
  (∀ n ∈ st.available, n ∉ akeys st.unavailable)

/-- Every recorded unavailability reason is a non-empty string. -/
def reasonsNonempty (st : Registry) : Prop :=
  ∀ pr ∈ st.unavailable, pr.2 ≠ ""

/-! ### Concrete fixtures (environments the external converter code can
present; used to instantiate the theorems below) -/

/-- A converter whose constructor succeeds and whose support check returns
`true` for every file. -/
def okClass : ConverterClass :=
  { ctorRaises := fun _ _ => false, supports := fun _ => .ok true, info := [] }

/-- A converter whose constructor succeeds and whose support check returns
`false` for every file. -/
def unsupportingClass : ConverterClass :=
  { ctorRaises := fun _ _ => false, supports := fun _ => .ok false, info := [] }

/-- A converter whose constructor always raises (for example a backend that
validates credentials in `__init__`). -/
def raisingClass : ConverterClass :=
  { ctorRaises := fun _ _ => true, supports := fun _ => .ok true, info := [] }

/-- A load outcome in which all five pdf-priority converters (and only those)
loaded successfully. -/
def stFive : Registry :=
  { converters := [("markitdown", okClass), ("docling", okClass),
                   ("marker", okClass), ("pypandoc", okClass),
                   ("unstructured", okClass)],
    available := ["markitdown", "docling", "marker", "pypandoc", "unstructured"],
    unavailable := [] }

/-- A load outcome with a single converter, whose constructor always
raises. -/
def stRaising : Registry :=
  { converters := [("conv1", raisingClass)], available := ["conv1"],
    unavailable := [] }

/-- A load outcome with a single converter, which supports no file. -/
def stUnsupporting : Registry :=
  { converters := [("conv1", unsupportingClass)], available := ["conv1"],
    unavailable := [] }

/-- A load outcome with two converters: the first supports no file, the
second supports every file. -/
def stAB : Registry :=
  { converters := [("alpha", unsupportingClass), ("beta", okClass)],
    available := ["alpha", "beta"], unavailable := [] }

/-- The registry state with nothing loaded. -/
def stEmpty : Registry :=
  { converters := [], available := [], unavailable := [] }

/-- A load outcome with two converters: the first's constructor always
raises, the second supports no file. -/
def stRaisingUnsupporting : Registry :=
  { converters := [("alpha", raisingClass), ("beta", unsupportingClass)],
    available := ["alpha", "beta"], unavailable := [] }

/-- An import environment in which every declared converter fails with an
exception that stringifies to the empty string (as a failing `assert` in a
backend module would, caught by the generic handler). -/
def envEmptyMsg : String → LoadResult := fun _ => .otherError ""

/-- An import environment in which every declared converter fails with a
missing-module error. -/
def envAllMissing : String → LoadResult :=
  fun _ => .importError "No module named app"

/-- A heap with the global `UNAVAILABLE_CONVERTERS` dict as its only
object. -/
def heapFixture : DictHeap :=
  { heap := [[("marker", "No module named marker")]], unavailRef := 0 }

/-! ### Association-list lemmas -/

theorem alookup_eq_none {α : Type} (k : String) (d : List (String × α)) :
    alookup k d = none ↔ k ∉ akeys d := by
  induction d with
  | nil => simp [alookup, akeys]
  | cons p ps ih =>
    by_cases h : p.1 = k
    · simp [alookup, akeys, h]
    · simp only [alookup, if_neg h, akeys, List.map_cons, List.mem_cons]
      simp only [akeys] at ih
      rw [ih]
      constructor
      · intro hk hc
        rcases hc with hc | hc
        · exact h hc.symm
        · exact hk hc
      · intro hk hc
        exact hk (Or.inr hc)

theorem alookup_isSome {α : Type} (k : String) (d : List (String × α)) :
    (alookup k d).isSome = true ↔ k ∈ akeys d := by
  rw [Option.isSome_iff_ne_none]
  rw [ne_eq, alookup_eq_none, not_not]

theorem contains_akeys {α : Type} (k : String) (d : List (String × α)) :
    (akeys d).contains k = true ↔ k ∈ akeys d := by
  simp

theorem akeys_dictInsert {α : Type} (k : String) (v : α)
    (d : List (String × α)) :
    akeys (dictInsert k v d) = if k ∈ akeys d then akeys d else akeys d ++ [k] := by
  unfold dictInsert
  by_cases h : k ∈ akeys d
  · rw [if_pos ((contains_akeys k d).mpr h), if_pos h]
    unfold akeys
    rw [List.map_map]
    apply List.map_congr_left
    intro p _
    by_cases hp : p.1 = k
    · simp [hp]
    · simp [hp]
  · rw [if_neg (fun hc => h ((contains_akeys k d).mp hc)), if_neg h]
    simp [akeys]

theorem mem_akeys_dictInsert {α : Type} (m k : String) (v : α)
    (d : List (String × α)) :
    m ∈ akeys (dictInsert k v d) ↔ m = k ∨ m ∈ akeys d := by
  rw [akeys_dictInsert]
  by_cases h : k ∈ akeys d
  · rw [if_pos h]
    constructor
    · exact Or.inr
    · rintro (rfl | hm)
      · exact h
      · exact hm
  · rw [if_neg h]
    simp [or_comm]

theorem mem_dictInsert {α : Type} (x : String × α) (k : String) (v : α)
    (d : List (String × α)) :
    x ∈ dictInsert k v d → x = (k, v) ∨ x ∈ d := by
  unfold dictInsert
  by_cases h : (akeys d).contains k
  · rw [if_pos h]
    intro hx
    rcases List.mem_map.mp hx with ⟨p, hp, he⟩
    by_cases hpk : p.1 = k
    · left; rw [← he]; simp [hpk]
    · right; rw [← he]; simpa [hpk] using hp
  · rw [if_neg h]
    intro hx
    rcases List.mem_append.mp hx with hx | hx
    · exact Or.inr hx
    · exact Or.inl (by simpa using hx)

/-! ### Load-phase characterization -/

theorem loadList_available (env : String → LoadResult) :
    ∀ (ns : List String) (st : Registry),
      (loadList env ns st).available =
        st.available ++ ns.filter (fun n => (env n).isOk) := by
  intro ns
  induction ns with
  | nil => intro st; simp [loadList]
  | cons n ns ih =>
    intro st
    rw [loadList, ih]
    cases hr : env n with
    | ok c =>
      simp [register_converter, List.filter_cons, hr, LoadResult.isOk]
    | importError m =>
      simp [register_converter, List.filter_cons, hr, LoadResult.isOk]
    | otherError m =>
      simp [register_converter, List.filter_cons, hr, LoadResult.isOk]

theorem mem_akeys_loadList_unavailable (env : String → LoadResult) :
    ∀ (ns : List String) (st : Registry) (m : String),
      m ∈ akeys (loadList env ns st).unavailable ↔
        m ∈ akeys st.unavailable ∨ (m ∈ ns ∧ (env m).isOk = false) := by
  intro ns
  induction ns with
  | nil => intro st m; simp [loadList]
  | cons n ns ih =>
    intro st m
    rw [loadList, ih]
    cases hr : env n with
    | ok c =>
      simp only [register_converter]
      constructor
      · rintro (h | ⟨hm, hf⟩)
        · exact Or.inl h
        · exact Or.inr ⟨List.mem_cons_of_mem _ hm, hf⟩
      · rintro (h | ⟨hm, hf⟩)
        · exact Or.inl h
        · rcases List.mem_cons.mp hm with rfl | hm
          · rw [hr] at hf; simp [LoadResult.isOk] at hf
          · exact Or.inr ⟨hm, hf⟩
    | importError msg =>
      simp only [register_converter]
      constructor
      · rintro (h | ⟨hm, hf⟩)
        · rcases (mem_akeys_dictInsert m n msg st.unavailable).mp h with rfl | h
          · exact Or.inr ⟨List.mem_cons_self _ _, by rw [hr]; rfl⟩
          · exact Or.inl h
        · exact Or.inr ⟨List.mem_cons_of_mem _ hm, hf⟩
      · rintro (h | ⟨hm, hf⟩)
        · exact Or.inl ((mem_akeys_dictInsert m n msg st.unavailable).mpr (Or.inr h))
        · rcases List.mem_cons.mp hm with rfl | hm
          · exact Or.inl ((mem_akeys_dictInsert m m msg st.unavailable).mpr (Or.inl rfl))
          · exact Or.inr ⟨hm, hf⟩
    | otherError msg =>
      simp only [register_converter]
      constructor
      · rintro (h | ⟨hm, hf⟩)
        · rcases (mem_akeys_dictInsert m n msg st.unavailable).mp h with rfl | h
          · exact Or.inr ⟨List.mem_cons_self _ _, by rw [hr]; rfl⟩
          · exact Or.inl h
        · exact Or.inr ⟨List.mem_cons_of_mem _ hm, hf⟩
      · rintro (h | ⟨hm, hf⟩)
        · exact Or.inl ((mem_akeys_dictInsert m n msg st.unavailable).mpr (Or.inr h))
        · rcases List.mem_cons.mp hm with rfl | hm
          · exact Or.inl ((mem_akeys_dictInsert m m msg st.unavailable).mpr (Or.inl rfl))
          · exact Or.inr ⟨hm, hf⟩

theorem mem_loadList_unavailable (env : String → LoadResult) :
    ∀ (ns : List String) (st : Registry) (pr : String × String),
      pr ∈ (loadList env ns st).unavailable →
        pr ∈ st.unavailable ∨ (env pr.1).errMsg = some pr.2 := by
  intro ns
  induction ns with
  | nil => intro st pr h; exact Or.inl h
  | cons n ns ih =>
    intro st pr h
    rw [loadList] at h
    cases hr : env n with
    | ok c =>
      rw [hr] at h
      rcases ih _ pr h with h | h
      · exact Or.inl h
      · exact Or.inr h
    | importError msg =>
      rw [hr] at h
      rcases ih _ pr h with h | h
      · rcases mem_dictInsert pr n msg st.unavailable h with rfl | h
        · exact Or.inr (by rw [hr]; rfl)
        · exact Or.inl h
      · exact Or.inr h
    | otherError msg =>
      rw [hr] at h
      rcases ih _ pr h with h | h
      · rcases mem_dictInsert pr n msg st.unavailable h with rfl | h
        · exact Or.inr (by rw [hr]; rfl)
        · exact Or.inl h
      · exact Or.inr h

theorem akeys_loadList_converters (env : String → LoadResult) :
    ∀ (ns : List String) (st : Registry), ns.Nodup →
      (∀ n ∈ ns, n ∉ akeys st.converters) →
      akeys (loadList env ns st).converters =
        akeys st.converters ++ ns.filter (fun n => (env n).isOk) := by
  intro ns
  induction ns with
  | nil => intro st _ _; simp [loadList]
  | cons n ns ih =>
    intro st hnd hfresh
    rw [loadList]
    cases hr : env n with
    | ok c =>
      have hn : n ∉ akeys st.converters := hfresh n (List.mem_cons_self _ _)
      have hstep : akeys (register_converter st n (.ok c)).converters =
          akeys st.converters ++ [n] := by
        simp only [register_converter]
        rw [akeys_dictInsert, if_neg hn]
      rw [ih _ (List.Nodup.of_cons hnd)]
      · rw [hstep, List.filter_cons, hr]
        simp [LoadResult.isOk]
      · intro m hm
        rw [hstep]
        intro hc
        rcases List.mem_append.mp hc with hc | hc
        · exact hfresh m (List.mem_cons_of_mem _ hm) hc
        · have : m = n := by simpa using hc
          exact (List.nodup_cons.mp hnd).1 (this ▸ hm)
    | importError msg =>
      rw [ih _ (List.Nodup.of_cons hnd)]
      · simp only [register_converter]
        rw [List.filter_cons, hr]
        simp [LoadResult.isOk]
      · intro m hm
        simp only [register_converter]
        exact hfresh m (List.mem_cons_of_mem _ hm)
    | otherError msg =>
      rw [ih _ (List.Nodup.of_cons hnd)]
      · simp only [register_converter]
        rw [List.filter_cons, hr]
        simp [LoadResult.isOk]
      · intro m hm
        simp only [register_converter]
        exact hfresh m (List.mem_cons_of_mem _ hm)

theorem loadAll_WF (env : String → LoadResult) : (loadAll env).WF := by
  constructor
  · rw [loadAll, akeys_loadList_converters env declaredNames _ (by decide)
      (by intro n _ h; simp [akeys] at h)]
    rw [loadList_available]
    rfl
  · rw [loadAll, loadList_available]
    simp only [List.nil_append]
    exact List.Nodup.filter _ (by decide)

theorem loadAll_available (env : String → LoadResult) :
    (loadAll env).available = declaredNames.filter (fun n => (env n).isOk) := by
  rw [loadAll, loadList_available]
  rfl

theorem mem_akeys_loadAll_unavailable (env : String → LoadResult) (m : String) :
    m ∈ akeys (loadAll env).unavailable ↔
      m ∈ declaredNames ∧ (env m).isOk = false := by
  rw [loadAll, mem_akeys_loadList_unavailable]
  simp [akeys]

/-! ### Facts about `get_converter` and the candidate loop -/

theorem alookup_mem_akeys {α : Type} {k : String} {v : α}
    {d : List (String × α)} (h : alookup k d = some v) : k ∈ akeys d := by
  by_contra hn
  rw [← alookup_eq_none k d] at hn
  rw [h] at hn
  exact Option.noConfusion hn

theorem get_converter_ne_noConv (st : Registry) (t : String)
    (k u : Option String) :
    get_converter st t k u ≠ .error .noConvertersAvailable := by
  unfold get_converter
  cases alookup t st.converters with
  | none => simp
  | some c =>
    by_cases h : c.ctorRaises k u = true
    · simp [h]
    · simp [h]

theorem get_converter_of_lookup {st : Registry} {t : String} {c : ConverterClass}
    (k u : Option String) (hc : alookup t st.converters = some c)
    (hr : c.ctorRaises k u = false) :
    get_converter st t k u = .ok { cls := c, apiKey := k, baseUrl := u } := by
  simp [get_converter, hc, hr]

theorem searchLoop_nil_converters (st : Registry) (h : st.converters = [])
    (p : Path) (k u : Option String) :
    ∀ l, searchLoop st p k u l = none := by
  intro l
  induction l with
  | nil => rfl
  | cons n ns ih => rw [searchLoop, h]; simpa [alookup] using ih

/-! ### Heap lemmas for the copy-semantics claim -/

theorem getD_set_ne {α : Type} (l : List α) (i j : Nat) (x d : α)
    (h : i ≠ j) : (l.set i x).getD j d = l.getD j d := by
  simp [List.getD, List.getElem?_set_ne h]

theorem getD_append_self {α : Type} (l : List α) (x d : α) :
    (l ++ [x]).getD l.length d = x := by
  simp [List.getD, List.getElem?_append_right]

theorem getD_append_lt {α : Type} (l l2 : List α) (i : Nat) (d : α)
    (h : i < l.length) : (l ++ l2).getD i d = l.getD i d := by
  simp [List.getD, List.getElem?_append, h]

theorem applyMutations_preserves (r : Nat)
    (ms : List (List (String × String) → List (String × String))) :
    ∀ (s : DictHeap) (j : Nat), j ≠ r →
      readRef (applyMutations r ms s) j = readRef s j ∧
      (applyMutations r ms s).unavailRef = s.unavailRef := by
  induction ms with
  | nil => intro s j _; exact ⟨rfl, rfl⟩
  | cons f ms ih =>
    intro s j hj
    have hstep : readRef (writeRef s r (f (readRef s r))) j = readRef s j := by
      unfold readRef writeRef
      exact getD_set_ne s.heap r j _ [] (fun he => hj he.symm)
    have hrec := ih (writeRef s r (f (readRef s r))) j hj
    unfold applyMutations at hrec ⊢
    simp only [List.foldl_cons]
    rw [hrec.1, hrec.2, hstep]
    exact ⟨rfl, rfl⟩

/-! ### Trace counting lemmas -/

theorem countConstruct_append (n : String) (t1 t2 : List Event) :
    countConstruct n (t1 ++ t2) = countConstruct n t1 + countConstruct n t2 := by
  induction t1 with
  | nil => simp [countConstruct]
  | cons e t1 ih =>
    cases e with
    | construct m ok => simp [countConstruct, ih]; ring
    | supportCheck m o => simp [countConstruct, ih]

theorem countSupport_append (n : String) (t1 t2 : List Event) :
    countSupport n (t1 ++ t2) = countSupport n t1 + countSupport n t2 := by
  induction t1 with
  | nil => simp [countSupport]
  | cons e t1 ih =>
    cases e with
    | construct m ok => simp [countSupport, ih]
    | supportCheck m o => simp [countSupport, ih]; ring

theorem counts_searchLoopT_not_mem (st : Registry) (p : Path)
    (k u : Option String) :
    ∀ (l : List String) (n : String), n ∉ l →
      countConstruct n (searchLoopT st p k u l).1 = 0 ∧
      countSupport n (searchLoopT st p k u l).1 = 0 := by
  intro l
  induction l with
  | nil => intro n _; exact ⟨rfl, rfl⟩
  | cons m l ih =>
    intro n hn
    have hm : m ≠ n := fun he => hn (he ▸ List.mem_cons_self m l)
    have hrest := ih n (fun h => hn (List.mem_cons_of_mem m h))
    rw [searchLoopT]
    cases alookup m st.converters with
    | none => exact hrest
    | some c =>
      cases hr : c.ctorRaises k u with
      | true => simp [hr, countConstruct, countSupport, hm, hrest.1, hrest.2]
      | false =>
        cases hs : c.supports p with
        | error e => simp [hr, hs, countConstruct, countSupport, hm, hrest.1, hrest.2]
        | ok b =>
          cases b with
          | true => simp [hr, hs, countConstruct, countSupport, hm]
          | false => simp [hr, hs, countConstruct, countSupport, hm, hrest.1, hrest.2]

theorem counts_searchLoopT_le_one (st : Registry) (p : Path)
    (k u : Option String) :
    ∀ (l : List String), l.Nodup → ∀ n : String,
      countConstruct n (searchLoopT st p k u l).1 ≤ 1 ∧
      countSupport n (searchLoopT st p k u l).1 ≤ 1 := by
  intro l
  induction l with
  | nil => intro _ n; exact ⟨Nat.zero_le 1, Nat.zero_le 1⟩
  | cons m l ih =>
    intro hnd n
    have hml : m ∉ l := (List.nodup_cons.mp hnd).1
    have hrest := ih (List.nodup_cons.mp hnd).2 n
    rw [searchLoopT]
    cases alookup m st.converters with
    | none => exact hrest
    | some c =>
      by_cases heq : m = n
      · subst heq
        have hz := counts_searchLoopT_not_mem st p k u l m hml
        cases hr : c.ctorRaises k u with
        | true => simp [hr, countConstruct, countSupport, hz.1, hz.2]
        | false =>
          cases hs : c.supports p with
          | error e => simp [hr, hs, countConstruct, countSupport, hz.1, hz.2]
          | ok b =>
            cases b with
            | true => simp [hr, hs, countConstruct, countSupport]
            | false => simp [hr, hs, countConstruct, countSupport, hz.1, hz.2]
      · cases hr : c.ctorRaises k u with
        | true => simp [hr, countConstruct, countSupport, heq, hrest.1, hrest.2]
        | false =>
          cases hs : c.supports p with
          | error e => simp [hr, hs, countConstruct, countSupport, heq, hrest.1, hrest.2]
          | ok b =>
            cases b with
            | true => simp [hr, hs, countConstruct, countSupport, heq]
            | false => simp [hr, hs, countConstruct, countSupport, heq, hrest.1, hrest.2]

theorem counts_fallbackTrace (st : Registry) (k u : Option String)
    (n : String) :
    countSupport n (fallbackTrace st k u) = 0 ∧
    countConstruct n (fallbackTrace st k u) ≤ 1 := by
  unfold fallbackTrace
  cases hav : st.available with
  | nil => exact ⟨rfl, Nat.zero_le 1⟩
  | cons f r =>
    cases hlk : alookup f st.converters with
    | none => simp [hlk, countSupport, countConstruct]
    | some c =>
      refine ⟨by simp [hlk, countSupport], ?_⟩
      simp only [hlk]
      simp [countConstruct]
      split <;> simp

/-! ### Claim theorems -/

/-- C1: for a call to `get_best_converter_for_file` on a path whose computed
extension key is "pdf" (the computation lower-cases, so this is
case-insensitive), with the registry well-formed and all five pdf-priority
converters (marker, docling, markitdown, pypandoc, unstructured) registered,
each constructing without error and reporting support for the file, the
returned value is an instance of the class registered under "marker". -/
theorem claim_C1 (st : Registry) (hwf : st.WF) (p : Path) (k u : Option String)
    (cm cd cmk cpy cun : ConverterClass)
    (hm : alookup "marker" st.converters = some cm)
    (hd : alookup "docling" st.converters = some cd)
    (hmk : alookup "markitdown" st.converters = some cmk)
    (hpy : alookup "pypandoc" st.converters = some cpy)
    (hun : alookup "unstructured" st.converters = some cun)
    (hmc : cm.ctorRaises k u = false) (hms : cm.supports p = .ok true)
    (hdc : cd.ctorRaises k u = false) (hds : cd.supports p = .ok true)
    (hmkc : cmk.ctorRaises k u = false) (hmks : cmk.supports p = .ok true)
    (hpyc : cpy.ctorRaises k u = false) (hpys : cpy.supports p = .ok true)
    (hunc : cun.ctorRaises k u = false) (huns : cun.supports p = .ok true)
    (hext : extKey p = "pdf") :
    get_best_converter_for_file st p k u =
      .ok { cls := cm, apiKey := k, baseUrl := u } := by
  have hpdf : alookup "pdf" priorityTable =
      some ["marker", "docling", "markitdown", "pypandoc", "unstructured"] := by
    decide
  have hcand : candidateList st p =
      ["marker", "docling", "markitdown", "pypandoc", "unstructured"] := by
    unfold candidateList
    rw [hext, hpdf]
  unfold get_best_converter_for_file
  rw [hcand]
  simp [searchLoop, hm, get_converter, hmc, hms]

/-- Instantiation of the C1 theorem: a registry with the five pdf-priority
converters all available and supporting, a mixed-case pdf name. -/
theorem claim_C1_witness :
    get_best_converter_for_file stFive { name := "Doc.PDF" } none none =
      .ok { cls := okClass, apiKey := none, baseUrl := none } :=
  claim_C1 stFive ⟨rfl, by decide⟩ { name := "Doc.PDF" } none none
    okClass okClass okClass okClass okClass
    rfl rfl rfl rfl rfl
    rfl rfl rfl rfl rfl rfl rfl rfl rfl rfl
    (by decide)

/-- C3 as stated is false on the code in one corner: for an available
identifier whose class constructor raises, `get_converter` does not return a
newly constructed instance — the constructor exception propagates. -/
theorem claim_C3_counterexample :
    "conv1" ∈ stRaising.available ∧
    get_converter stRaising "conv1" none none =
      .error .converterException :=
  ⟨by decide, rfl⟩

/-- C3 amended: `get_converter` fails with the unknown/unavailable lookup
error exactly when the identifier is not among the loaded converters; the
error carries the current available list (which the message enumerates);
and for an available identifier it invokes the registered class's
constructor and, when that constructor does not raise, returns a fresh
instance of exactly that class (a constructor exception propagates
instead). -/
theorem claim_C3 (st : Registry) (hwf : st.WF) (t : String)
    (k u : Option String) :
    ((∃ a, get_converter st t k u = .error (.converterNotAvailable t a)) ↔
      t ∉ st.available)
    ∧ (∀ a, get_converter st t k u = .error (.converterNotAvailable t a) →
        a = st.available)
    ∧ (t ∈ st.available → ∃ c, alookup t st.converters = some c ∧
        (c.ctorRaises k u = false →
          get_converter st t k u = .ok { cls := c, apiKey := k, baseUrl := u })) := by
  have hkeys : akeys st.converters = st.available := hwf.1
  cases hc : alookup t st.converters with
  | none =>
    have hn : t ∉ st.available := by
      rw [← hkeys]
      exact (alookup_eq_none t st.converters).mp hc
    refine ⟨⟨fun _ => hn, fun _ => ⟨st.available, by simp [get_converter, hc]⟩⟩,
      ?_, ?_⟩
    · intro a ha
      simp [get_converter, hc] at ha
      exact ha.symm
    · intro ht
      exact absurd ht hn
  | some c =>
    have hmem : t ∈ st.available := by
      rw [← hkeys]
      exact alookup_mem_akeys hc
    have hne : ∀ a, get_converter st t k u ≠ .error (.converterNotAvailable t a) := by
      intro a
      cases hr : c.ctorRaises k u with
      | true => simp [get_converter, hc, hr]
      | false => simp [get_converter, hc, hr]
    refine ⟨⟨?_, fun hn => absurd hmem hn⟩, ?_, ?_⟩
    · rintro ⟨a, ha⟩
      exact absurd ha (hne a)
    · intro a ha
      exact absurd ha (hne a)
    · intro _
      exact ⟨c, rfl, fun hr => get_converter_of_lookup k u hc hr⟩

/-- Instantiation of the C3 theorem: an identifier that never loaded fails
with the lookup error whatever the credentials. -/
theorem claim_C3_witness :
    ∃ a, get_converter stFive "nope" none none =
      .error (.converterNotAvailable "nope" a) :=
  ((claim_C3 stFive ⟨rfl, by decide⟩ "nope" none none).1).mpr (by decide)

/-- C4: `get_best_converter_for_file` raises the no-converters error exactly
when the available set is empty, and with zero converters available both the
file-based lookup and the explicit lookup fail with their respective lookup
errors (never any other exception). -/
theorem claim_C4 (st : Registry) (hwf : st.WF) (p : Path)
    (k u : Option String) :
    (get_best_converter_for_file st p k u = .error .noConvertersAvailable ↔
      st.available = [])
    ∧ (st.available = [] →
        get_best_converter_for_file st p k u = .error .noConvertersAvailable ∧
        ∀ t, get_converter st t k u = .error (.converterNotAvailable t [])) := by
  have hback : st.available = [] →
      get_best_converter_for_file st p k u = .error .noConvertersAvailable := by
    intro hav
    have h1 : st.converters.map Prod.fst = [] := by
      rw [show st.converters.map Prod.fst = akeys st.converters from rfl, hwf.1,
        hav]
    have hconv : st.converters = [] := List.map_eq_nil_iff.mp h1
    unfold get_best_converter_for_file
    rw [searchLoop_nil_converters st hconv p k u, hav]
  refine ⟨⟨?_, hback⟩, ?_⟩
  · intro he
    unfold get_best_converter_for_file at he
    cases hs : searchLoop st p k u (candidateList st p) with
    | some i =>
      rw [hs] at he
      exact absurd he (by simp)
    | none =>
      rw [hs] at he
      cases hav : st.available with
      | nil => rfl
      | cons f r =>
        rw [hav] at he
        exact absurd he (get_converter_ne_noConv st f k u)
  · intro hav
    refine ⟨hback hav, ?_⟩
    intro t
    have h1 : st.converters.map Prod.fst = [] := by
      rw [show st.converters.map Prod.fst = akeys st.converters from rfl, hwf.1,
        hav]
    have hconv : st.converters = [] := List.map_eq_nil_iff.mp h1
    have hgc : get_converter st t k u =
        .error (.converterNotAvailable t st.available) := by
      unfold get_converter
      rw [hconv]
      rfl
    rw [hgc, hav]

/-- Instantiation of the C4 theorem: with nothing loaded, both lookups fail
with their lookup errors. -/
theorem claim_C4_witness :
    get_best_converter_for_file stEmpty { name := "a.pdf" } none none =
      .error .noConvertersAvailable ∧
    get_converter stEmpty "marker" none none =
      .error (.converterNotAvailable "marker" []) := by
  have h := (claim_C4 stEmpty ⟨rfl, List.nodup_nil⟩ { name := "a.pdf" }
    none none).2 rfl
  exact ⟨h.1, h.2 "marker"⟩

/-- C8: the module state is left unchanged by every call to the four query
functions, whatever the arguments and outcome (none of their bodies assigns
to a module global, so the threaded state passes through unchanged). -/
theorem claim_C8 (st : Registry) (t : String) (p : Path)
    (k u : Option String) :
    (get_converter_st st t k u).1 = st ∧
    (get_best_converter_for_file_st st p k u).1 = st ∧
    (get_all_converter_info_st st).1 = st ∧
    (get_unavailable_converters_st st).1 = st :=
  ⟨rfl, rfl, rfl, rfl⟩

/-- C10: the priority-table key comes from the final suffix of the name
only: "a.tar.gz" yields key "gz" (so only "gz" could match the table, and it
does not, so that file falls back to the available list), a dotfile or
suffix-less name yields the empty key, the empty key is not in the table,
and any path with an empty key searches the full available list in load
order. -/
theorem claim_C10 :
    extKey { name := "a.tar.gz" } = "gz" ∧
    extKey { name := ".bashrc" } = "" ∧
    extKey { name := "README" } = "" ∧
    alookup "" priorityTable = none ∧
    (∀ p q : Path, pySuffix p.name = pySuffix q.name → extKey p = extKey q) ∧
    (∀ (st : Registry) (p : Path), extKey p = "" →
      candidateList st p = st.available) ∧
    (∀ st : Registry, candidateList st { name := "a.tar.gz" } = st.available) := by
  refine ⟨by decide, by decide, by decide, by decide, ?_, ?_, ?_⟩
  · intro p q h
    unfold extKey
    rw [h]
  · intro st p h
    unfold candidateList
    rw [h, show alookup "" priorityTable = none from by decide]
  · intro st
    unfold candidateList
    rw [show extKey { name := "a.tar.gz" } = "gz" from by decide,
        show alookup "gz" priorityTable = none from by decide]

/-- Instantiation of the C10 theorem: a dotfile name searches the full
available list. -/
theorem claim_C10_witness :
    candidateList stFive { name := ".bashrc" } = stFive.available :=
  claim_C10.2.2.2.2.2.1 stFive { name := ".bashrc" } (by decide)

/-- C2 as stated is false on the code in one corner: with converters A and B
available in that order, A's constructor always raising and B supporting
nothing, neither reports support, and the final fallback (which the claim
says returns an instance of A unconditionally) re-runs A's constructor
outside any handler, so the call raises instead of returning A's
instance. -/
theorem claim_C2_counterexample :
    stRaisingUnsupporting.available = ["alpha", "beta"] ∧
    get_best_converter_for_file stRaisingUnsupporting { name := "f.zzz" }
      none none = .error .converterException :=
  ⟨rfl, rfl⟩

/-- C2 amended: for a path whose extension key is not in the priority table
and a registry holding exactly converters A then B (in load order), the call
returns an instance of A when A constructs and reports support, otherwise an
instance of B when B constructs and reports support, otherwise it falls back
to A without consulting A's support check — returning A's instance provided
A's constructor does not raise (the constructor still runs, outside the
loop's handler). -/
theorem claim_C2 (A B : String) (ca cb : ConverterClass) (st : Registry)
    (p : Path) (k u : Option String)
    (hst : st.converters = [(A, ca), (B, cb)])
    (hav : st.available = [A, B])
    (hAB : A ≠ B)
    (hext : alookup (extKey p) priorityTable = none) :
    (ca.ctorRaises k u = false → ca.supports p = .ok true →
      get_best_converter_for_file st p k u =
        .ok { cls := ca, apiKey := k, baseUrl := u })
    ∧ (¬(ca.ctorRaises k u = false ∧ ca.supports p = .ok true) →
       cb.ctorRaises k u = false → cb.supports p = .ok true →
       get_best_converter_for_file st p k u =
         .ok { cls := cb, apiKey := k, baseUrl := u })
    ∧ (¬(ca.ctorRaises k u = false ∧ ca.supports p = .ok true) →
       ¬(cb.ctorRaises k u = false ∧ cb.supports p = .ok true) →
       ca.ctorRaises k u = false →
       get_best_converter_for_file st p k u =
         .ok { cls := ca, apiKey := k, baseUrl := u }) := by
  have hA : alookup A st.converters = some ca := by
    rw [hst]; simp [alookup]
  have hB : alookup B st.converters = some cb := by
    rw [hst]; simp [alookup, hAB]
  have hcand : candidateList st p = [A, B] := by
    unfold candidateList
    rw [hext, hav]
  refine ⟨?_, ?_, ?_⟩
  · intro h1 h2
    unfold get_best_converter_for_file
    rw [hcand]
    simp [searchLoop, get_converter, hA, h1, h2]
  · intro hfa h1 h2
    unfold get_best_converter_for_file
    rw [hcand]
    cases hca : ca.ctorRaises k u with
    | true => simp [searchLoop, get_converter, hA, hB, hca, h1, h2]
    | false =>
      cases hsa : ca.supports p with
      | error e => simp [searchLoop, get_converter, hA, hB, hca, hsa, h1, h2]
      | ok b =>
        cases b with
        | true => exact absurd ⟨hca, hsa⟩ hfa
        | false => simp [searchLoop, get_converter, hA, hB, hca, hsa, h1, h2]
  · intro hfa hfb h1
    unfold get_best_converter_for_file
    rw [hcand]
    cases hsa : ca.supports p with
    | error e =>
      cases hcb : cb.ctorRaises k u with
      | true => simp [searchLoop, get_converter, hA, hB, h1, hsa, hcb, hav]
      | false =>
        cases hsb : cb.supports p with
        | error e2 =>
          simp [searchLoop, get_converter, hA, hB, h1, hsa, hcb, hsb, hav]
        | ok b =>
          cases b with
          | true => exact absurd ⟨hcb, hsb⟩ hfb
          | false =>
            simp [searchLoop, get_converter, hA, hB, h1, hsa, hcb, hsb, hav]
    | ok b =>
      cases b with
      | true => exact absurd ⟨h1, hsa⟩ hfa
      | false =>
        cases hcb : cb.ctorRaises k u with
        | true => simp [searchLoop, get_converter, hA, hB, h1, hsa, hcb, hav]
        | false =>
          cases hsb : cb.supports p with
          | error e2 =>
            simp [searchLoop, get_converter, hA, hB, h1, hsa, hcb, hsb, hav]
          | ok b2 =>
            cases b2 with
            | true => exact absurd ⟨hcb, hsb⟩ hfb
            | false =>
              simp [searchLoop, get_converter, hA, hB, h1, hsa, hcb, hsb, hav]

/-- Instantiation of the C2 theorem: the first converter answers no, the
second answers yes, an unlisted extension; the second converter is chosen. -/
theorem claim_C2_witness :
    get_best_converter_for_file stAB { name := "f.zzz" } none none =
      .ok { cls := okClass, apiKey := none, baseUrl := none } :=
  (claim_C2 "alpha" "beta" unsupportingClass okClass stAB { name := "f.zzz" }
      none none rfl rfl (by decide) (by decide)).2.1
    (fun h => by simpa [unsupportingClass] using h.2) rfl rfl

/-- C5 as stated is false on the code: with one available converter whose
constructor always raises and a file with an unlisted extension, the
candidate loop swallows the constructor exception, but the final fallback
constructs the same converter outside any handler, and that exception
reaches the caller. -/
theorem claim_C5_counterexample :
    stRaising.available = ["conv1"] ∧
    get_best_converter_for_file stRaising { name := "file.xyz" } none none =
      .error .converterException :=
  ⟨rfl, rfl⟩

/-- C5 amended: every exception raised while constructing or support-checking
a candidate inside the ranked search loop is captured and only moves the
search to the next candidate; an error escapes the call only as the
no-converters error (empty available set) or out of the final fallback
construction of the first available converter, which runs outside the
handler. -/
theorem claim_C5_amended (st : Registry) (p : Path) (k u : Option String) :
    (∀ e, get_best_converter_for_file st p k u = .error e →
      (st.available = [] ∧ e = .noConvertersAvailable) ∨
      (∃ first rest, st.available = first :: rest ∧
        searchLoop st p k u (candidateList st p) = none ∧
        get_converter st first k u = .error e))
    ∧ (∀ (n : String) (rest : List String),
        ¬(∃ c, alookup n st.converters = some c ∧ c.ctorRaises k u = false ∧
          c.supports p = .ok true) →
        searchLoop st p k u (n :: rest) = searchLoop st p k u rest) := by
  constructor
  · intro e he
    unfold get_best_converter_for_file at he
    cases hs : searchLoop st p k u (candidateList st p) with
    | some i =>
      rw [hs] at he
      have he2 : (Except.ok i : Except ConvError ConverterInstance) = .error e := he
      exact absurd he2 (by simp)
    | none =>
      rw [hs] at he
      cases hav : st.available with
      | nil =>
        rw [hav] at he
        have he2 : (Except.error ConvError.noConvertersAvailable :
            Except ConvError ConverterInstance) = .error e := he
        injection he2 with h3
        exact Or.inl ⟨rfl, h3.symm⟩
      | cons f r =>
        rw [hav] at he
        have he2 : get_converter st f k u = .error e := he
        exact Or.inr ⟨f, r, rfl, rfl, he2⟩
  · intro n rest hno
    rw [searchLoop]
    cases hc : alookup n st.converters with
    | none => simp
    | some c =>
      cases hr : c.ctorRaises k u with
      | true => simp [get_converter, hc, hr]
      | false =>
        cases hsv : c.supports p with
        | error e => simp [get_converter, hc, hr, hsv]
        | ok b =>
          cases b with
          | true => exact absurd ⟨c, hc, hr, hsv⟩ hno
          | false => simp [get_converter, hc, hr, hsv]

/-- Instantiation of the amended C5 theorem at the counterexample state: the
escaped exception is the fallback construction's. -/
theorem claim_C5_amended_witness :
    (stRaising.available = [] ∧
      ConvError.converterException = ConvError.noConvertersAvailable) ∨
    (∃ first rest, stRaising.available = first :: rest ∧
      searchLoop stRaising { name := "file.xyz" } none none
        (candidateList stRaising { name := "file.xyz" }) = none ∧
      get_converter stRaising first none none = .error .converterException) :=
  (claim_C5_amended stRaising { name := "file.xyz" } none none).1
    .converterException rfl

/-- C6 as stated is false on the code: a candidate whose support check
answered `false` is constructed a second time by the final fallback, within
the same call. -/
theorem claim_C6_counterexample :
    ¬ NoRetry (bestConverterTrace stUnsupporting { name := "file.xyz" }
      none none) := by
  decide

/-- C6 amended: within one call no candidate is support-checked more than
once (and within the ranked loop no candidate is constructed more than
once, given the candidate list has no duplicates); the final fallback never
performs a support check, but it may construct the first available
converter one more time, so a candidate is constructed at most twice per
call. -/
theorem claim_C6_amended (st : Registry) (p : Path) (k u : Option String)
    (h : (candidateList st p).Nodup) (n : String) :
    countSupport n (bestConverterTrace st p k u) ≤ 1 ∧
    countConstruct n (bestConverterTrace st p k u) ≤ 2 ∧
    countSupport n (fallbackTrace st k u) = 0 := by
  have hloop := counts_searchLoopT_le_one st p k u (candidateList st p) h n
  have hfb := counts_fallbackTrace st k u n
  unfold bestConverterTrace
  cases hres : searchLoopT st p k u (candidateList st p) with
  | mk tr res =>
    rw [hres] at hloop
    cases res with
    | some i =>
      exact ⟨hloop.2, le_trans hloop.1 (by norm_num), hfb.1⟩
    | none =>
      have hc1 : countConstruct n tr ≤ 1 := hloop.1
      have hs1 : countSupport n tr ≤ 1 := hloop.2
      refine ⟨?_, ?_, hfb.1⟩
      · rw [countSupport_append, hfb.1]
        simpa using hs1
      · rw [countConstruct_append]
        have h2 := hfb.2
        omega

/-- Instantiation of the amended C6 theorem at the counterexample state. -/
theorem claim_C6_amended_witness :
    countSupport "conv1" (bestConverterTrace stUnsupporting
      { name := "file.xyz" } none none) ≤ 1 ∧
    countConstruct "conv1" (bestConverterTrace stUnsupporting
      { name := "file.xyz" } none none) ≤ 2 ∧
    countSupport "conv1" (fallbackTrace stUnsupporting none none) = 0 :=
  claim_C6_amended stUnsupporting { name := "file.xyz" } none none
    (by decide) "conv1"

/-- C7 as stated is false on the code: the recorded reason is the
stringified exception, and an exception can stringify to the empty string
(for instance a bare failing `assert` in a backend module, caught by the
generic handler), leaving an unavailable converter with an empty reason. -/
theorem claim_C7_counterexample :
    ¬ (registryPartition (loadAll envEmptyMsg) ∧
       reasonsNonempty (loadAll envEmptyMsg)) := by
  intro h
  exact h.2 ("markitdown", "") (by decide) rfl

/-- C7 amended: after every load phase, the available and unavailable
identifiers partition the declared ones (disjoint and covering,
unconditionally); every unavailable identifier maps to exactly the
stringified exception of its own import attempt, and that recorded reason
is non-empty whenever its own exception stringifies non-empty. -/
theorem claim_C7_amended (env : String → LoadResult) :
    registryPartition (loadAll env) ∧
    (∀ pr ∈ (loadAll env).unavailable, (env pr.1).errMsg = some pr.2) ∧
    (∀ pr ∈ (loadAll env).unavailable,
      (env pr.1).errMsg ≠ some "" → pr.2 ≠ "") := by
  have hreason : ∀ pr ∈ (loadAll env).unavailable,
      (env pr.1).errMsg = some pr.2 := by
    intro pr hpr
    rcases mem_loadList_unavailable env declaredNames
        { converters := [], available := [], unavailable := [] } pr hpr with h | h
    · simp at h
    · exact h
  refine ⟨⟨?_, ?_, ?_, ?_⟩, hreason, ?_⟩
  · intro n hn
    cases hok : (env n).isOk with
    | true =>
      left
      rw [loadAll_available]
      exact List.mem_filter.mpr ⟨hn, hok⟩
    | false =>
      right
      exact (mem_akeys_loadAll_unavailable env n).mpr ⟨hn, hok⟩
  · intro n hn
    rw [loadAll_available] at hn
    exact (List.mem_filter.mp hn).1
  · intro n hn
    exact ((mem_akeys_loadAll_unavailable env n).mp hn).1
  · intro n hn hun
    rw [loadAll_available] at hn
    have h1 : (env n).isOk = true := (List.mem_filter.mp hn).2
    have h2 : (env n).isOk = false :=
      ((mem_akeys_loadAll_unavailable env n).mp hun).2
    rw [h1] at h2
    exact Bool.noConfusion h2
  · intro pr hpr hne he
    apply hne
    rw [hreason pr hpr, he]

/-- Instantiation of the amended C7 theorem: all imports fail with a
missing-module message, giving a full unavailable set with non-empty
reasons. -/
theorem claim_C7_amended_witness :
    registryPartition (loadAll envAllMissing) ∧
    reasonsNonempty (loadAll envAllMissing) := by
  have h := claim_C7_amended envAllMissing
  have hmsgne : (some "No module named app" : Option String) ≠ some "" := by
    decide
  exact ⟨h.1, fun pr hpr => h.2.2 pr hpr hmsgne⟩

/-- C9: `get_unavailable_converters` hands out a fresh copy of the
unavailable dict: after any sequence of in-place mutations of the returned
object, the module's own dict is unchanged and a second call returns the
same mapping as before the mutations. -/
theorem claim_C9 (s : DictHeap) (hwf : s.WF)
    (ms : List (List (String × String) → List (String × String))) :
    readRef (applyMutations (get_unavailable_converters_heap s).2 ms
      (get_unavailable_converters_heap s).1) s.unavailRef =
      readRef s s.unavailRef ∧
    readRef
      (get_unavailable_converters_heap
        (applyMutations (get_unavailable_converters_heap s).2 ms
          (get_unavailable_converters_heap s).1)).1
      (get_unavailable_converters_heap
        (applyMutations (get_unavailable_converters_heap s).2 ms
          (get_unavailable_converters_heap s).1)).2 =
      readRef s s.unavailRef := by
  have hne : s.unavailRef ≠ s.heap.length := Nat.ne_of_lt hwf
  have hs1 : readRef (get_unavailable_converters_heap s).1 s.unavailRef =
      readRef s s.unavailRef := by
    show (s.heap ++ [readRef s s.unavailRef]).getD s.unavailRef [] =
      readRef s s.unavailRef
    exact getD_append_lt s.heap _ s.unavailRef [] hwf
  have hpres := applyMutations_preserves (get_unavailable_converters_heap s).2
    ms (get_unavailable_converters_heap s).1 s.unavailRef hne
  have h1 : readRef (applyMutations (get_unavailable_converters_heap s).2 ms
      (get_unavailable_converters_heap s).1) s.unavailRef =
      readRef s s.unavailRef := hpres.1.trans hs1
  have h2 : (applyMutations (get_unavailable_converters_heap s).2 ms
      (get_unavailable_converters_heap s).1).unavailRef = s.unavailRef :=
    hpres.2
  refine ⟨h1, ?_⟩
  generalize hgen : applyMutations (get_unavailable_converters_heap s).2 ms
    (get_unavailable_converters_heap s).1 = s2 at h1 h2
  show (s2.heap ++ [readRef s2 s2.unavailRef]).getD s2.heap.length [] =
    readRef s s.unavailRef
  rw [getD_append_self, h2]
  exact h1

/-- Instantiation of the C9 theorem: clearing the returned dict leaves the
module's dict unchanged. -/
theorem claim_C9_witness :
    readRef (applyMutations (get_unavailable_converters_heap heapFixture).2
      [fun _ => []] (get_unavailable_converters_heap heapFixture).1)
      heapFixture.unavailRef = readRef heapFixture heapFixture.unavailRef :=
  (claim_C9 heapFixture Nat.zero_lt_one [fun _ => []]).1

end ToMD
